import Mathlib

/-!
Verification of the pod-termination statistical analysis engine
(`scripts/statistical-analysis.js`, with the z-score variant of the same
engine from the second copy of the script).

Shallow embedding conventions:
* JavaScript numbers that are known to be finite rationals on the verified
  paths are modelled by `ℚ`; timestamps (produced by `parseInt`) by `ℤ`.
* A parsed metric cell is `Option ℚ`: `none` models a cell whose
  `parseFloat` is `NaN` (missing or unparseable).
* `Math.sqrt` is modelled by the exact real square root, so standard
  deviations live in `ℝ`.
* The regression inside the detrender can produce `NaN`/`Infinity`, so that
  component is modelled over an explicit JavaScript-number type `JSN`.
-/

namespace AvailTest

/-- One row of the k6 time series: the parsed `Time` column plus the parsed
latency, throughput and check-rate cells.  A cell is `none` when the raw
text does not parse as a number. -/
structure Sample where
  time : ℤ
  latency : Option ℚ
  throughput : Option ℚ
  checks : List (Option ℚ)
  deriving DecidableEq

/-- One pod-termination event, with the termination time already normalized
to epoch milliseconds (the timestamp normalizer is verified separately). -/
structure Termination where
  pod : String
  time : ℤ
  status : String
  deriving DecidableEq

/-- Mean of a list, mirroring `mean` in `statistical-analysis.js`:
0 for the empty list, otherwise sum divided by length. -/
def mean (values : List ℚ) : ℚ :=
  if values.length = 0 then 0
  else values.sum / (values.length : ℚ)

/-- Standard deviation, mirroring `stdDev` in `statistical-analysis.js`:
0 for an empty list, otherwise the square root of the mean squared
difference from the mean (population form, no Bessel correction). -/
noncomputable def stdDev (values : List ℚ) : ℝ :=
  if values.length = 0 then 0
  else Real.sqrt ((mean (values.map fun val => (val - mean values) ^ 2) : ℚ) : ℝ)

/-- The inclusion policy applied by every aggregation loop in the script:
a raw cell contributes a value exactly when it parses as a number
(`!isNaN(...)`) and that number is strictly positive. -/
def includedValues (rows : List Sample) (metric : Sample → Option ℚ) : List ℚ :=
  rows.filterMap fun row =>
    match metric row with
    | some v => if 0 < v then some v else none
    | none => none

/-- The before-window filter of `getMetricsBeforeTermination`:
samples with `windowStart ≤ rowTime < terminationTime` where
`windowStart = terminationTime - windowSeconds * 1000`. -/
def beforeData (timeSeriesData : List Sample) (terminationTime windowSeconds : ℤ) :
    List Sample :=
  timeSeriesData.filter fun row =>
    decide (terminationTime - windowSeconds * 1000 ≤ row.time) &&
    decide (row.time < terminationTime)

/-- The after-window filter of `getMetricsAfterTermination`:
samples with `terminationTime < rowTime ≤ windowEnd` where
`windowEnd = terminationTime + windowSeconds * 1000`. -/
def afterData (timeSeriesData : List Sample) (terminationTime windowSeconds : ℤ) :
    List Sample :=
  timeSeriesData.filter fun row =>
    decide (terminationTime < row.time) &&
    decide (row.time ≤ terminationTime + windowSeconds * 1000)

/-- The failure scan of `getMetricsAfterTermination`: some check-rate cell
in the window parses to a value strictly between 0 and 1.  The script
iterates columns in the outer loop and rows in the inner loop; the result
is the same existential over row/cell pairs. -/
def hasFailuresIn (rows : List Sample) : Bool :=
  rows.any fun row => row.checks.any fun cell =>
    match cell with
    | some v => decide (0 < v) && decide (v < 1)
    | none => false

/-- Per-metric statistics stored by `getMetricsBeforeTermination`. -/
structure BeforeStats where
  mean : ℚ
  stdDev : ℝ
  values : List ℚ
  count : ℕ

/-- Result object of `getMetricsBeforeTermination`. -/
structure BeforeMetrics where
  latency : BeforeStats
  throughput : BeforeStats
  windowSeconds : ℤ

/-- Per-metric statistics stored by `getMetricsAfterTermination`
(the after side stores no standard deviation). -/
structure AfterStats where
  mean : ℚ
  values : List ℚ
  count : ℕ

/-- Result object of `getMetricsAfterTermination`. -/
structure AfterMetrics where
  latency : AfterStats
  throughput : AfterStats
  windowSeconds : ℤ
  hasFailures : Bool

/-- `getMetricsBeforeTermination`: `none` models the `null` returned when
the before window holds no samples at all. -/
noncomputable def getMetricsBeforeTermination (timeSeriesData : List Sample)
    (terminationTime windowSeconds : ℤ) : Option BeforeMetrics :=
  let bd := beforeData timeSeriesData terminationTime windowSeconds
  if bd.length = 0 then none
  else
    let latencyValues := includedValues bd Sample.latency
    let throughputValues := includedValues bd Sample.throughput
    some
      { latency :=
          { mean := mean latencyValues, stdDev := stdDev latencyValues,
            values := latencyValues, count := latencyValues.length },
        throughput :=
          { mean := mean throughputValues, stdDev := stdDev throughputValues,
            values := throughputValues, count := throughputValues.length },
        windowSeconds := windowSeconds }

/-- `getMetricsAfterTermination`: `none` models the `null` returned when
the after window holds no samples at all. -/
def getMetricsAfterTermination (timeSeriesData : List Sample)
    (terminationTime windowSeconds : ℤ) : Option AfterMetrics :=
  let ad := afterData timeSeriesData terminationTime windowSeconds
  if ad.length = 0 then none
  else
    let latencyValues := includedValues ad Sample.latency
    let throughputValues := includedValues ad Sample.throughput
    some
      { latency :=
          { mean := mean latencyValues, values := latencyValues,
            count := latencyValues.length },
        throughput :=
          { mean := mean throughputValues, values := throughputValues,
            count := throughputValues.length },
        windowSeconds := windowSeconds,
        hasFailures := hasFailuresIn ad }

/-- `calculatePercentageChange`: guarded percentage change from the
baseline mean. -/
def calculatePercentageChange (value baselineMean : ℚ) : ℚ :=
  if baselineMean = 0 then 0
  else (value - baselineMean) / baselineMean * 100

/-- `calculateZScore` (second script copy): guarded deviation in baseline
standard deviations. -/
def calculateZScore (value baselineMean baselineStdDev : ℚ) : ℚ :=
  if baselineStdDev = 0 then 0
  else (value - baselineMean) / baselineStdDev

/-- The qualitative significance tiers produced by both classifiers. -/
inductive Significance where
  | notSignificant
  | marginal
  | significant
  | highlySignificant
  deriving DecidableEq

/-- Severity rank of a significance tier, for monotonicity statements. -/
def severity : Significance → ℕ
  | .notSignificant => 0
  | .marginal => 1
  | .significant => 2
  | .highlySignificant => 3

/-- `assessSignificance`: classify a percentage change by absolute value
against the 10/5/2 thresholds. -/
def assessSignificance (percentageChange : ℚ) : Significance :=
  let absChange := |percentageChange|
  if absChange > 10 then .highlySignificant
  else if absChange > 5 then .significant
  else if absChange > 2 then .marginal
  else .notSignificant

/-- `assessSignificanceByZScore` (second script copy): classify a z-score
by absolute value against the 2.58/1.96/1.28 thresholds. -/
def assessSignificanceByZScore (zScore : ℚ) : Significance :=
  let absZ := |zScore|
  if absZ > (2.58 : ℚ) then .highlySignificant
  else if absZ > (1.96 : ℚ) then .significant
  else if absZ > (1.28 : ℚ) then .marginal
  else .notSignificant

/-- A raw timestamp token as consumed by `parseTimestamp`.  Numeric tokens
are modelled as decimal integer numerals (where the `isNaN` coercion and
`parseInt` agree on the value `n`); `dateToken ms` is a non-numeric token
that `new Date(...)` resolves to epoch milliseconds `ms`; `invalidToken`
parses as neither. -/
inductive RawTimestamp where
  | intToken (n : ℤ)
  | dateToken (ms : ℤ)
  | invalidToken
  deriving DecidableEq

/-- A JavaScript time value: epoch milliseconds or `NaN`
(`new Date(invalid).getTime()`). -/
inductive JSTime where
  | val (ms : ℤ)
  | nan
  deriving DecidableEq

/-- `parseTimestamp`: numeric tokens above `10^12` pass through as
milliseconds, other numeric tokens are scaled from seconds, non-numeric
tokens go through the date parser, and an unparseable token yields `NaN`
rather than an error. -/
def parseTimestamp : RawTimestamp → JSTime
  | .intToken n => if n > 1000000000000 then .val n else .val (n * 1000)
  | .dateToken ms => .val ms
  | .invalidToken => .nan

/-- Modelled from the spec: section 4.1 demands that a token that parses
neither as a number nor as a calendar date make the operation fail with
`TimestampParseError` (modelled as `Except.error ()`) instead of producing
a time value.  This definition follows the spec wording and is compared
against the implementation `parseTimestamp`. -/
def parseTimestampSpec : RawTimestamp → Except Unit ℤ
  | .intToken n => if n > 10 ^ 12 then .ok n else .ok (n * 1000)
  | .dateToken ms => .ok ms
  | .invalidToken => .error ()

/-- A JavaScript number for the regression paths: a finite rational, `NaN`,
or a signed infinity (`inf true` is positive infinity).  Signed zero is not
modelled; the denominators reaching `JSN.div` here are exact rationals. -/
inductive JSN where
  | num : ℚ → JSN
  | nan : JSN
  | inf : Bool → JSN
  deriving DecidableEq

/-- JavaScript addition on `JSN`. -/
def JSN.add : JSN → JSN → JSN
  | num a, num b => num (a + b)
  | nan, _ => nan
  | _, nan => nan
  | inf s, inf t => if s = t then inf s else nan
  | inf s, num _ => inf s
  | num _, inf t => inf t

/-- JavaScript subtraction on `JSN`. -/
def JSN.sub : JSN → JSN → JSN
  | num a, num b => num (a - b)
  | nan, _ => nan
  | _, nan => nan
  | inf s, inf t => if s = t then nan else inf s
  | inf s, num _ => inf s
  | num _, inf t => inf !t

/-- JavaScript multiplication on `JSN`. -/
def JSN.mul : JSN → JSN → JSN
  | num a, num b => num (a * b)
  | nan, _ => nan
  | _, nan => nan
  | inf s, inf t => inf (s = t)
  | inf s, num b => if b = 0 then nan else inf (s = decide (0 < b))
  | num a, inf t => if a = 0 then nan else inf (t = decide (0 < a))

/-- JavaScript division on `JSN`: division by zero yields `NaN` for a zero
numerator and a signed infinity otherwise. -/
def JSN.div : JSN → JSN → JSN
  | num a, num b => if b = 0 then (if a = 0 then nan else inf (decide (0 < a))) else num (a / b)
  | nan, _ => nan
  | _, nan => nan
  | inf s, num b => if b = 0 then inf s else inf (s = decide (0 < b))
  | num _, inf _ => num 0
  | inf _, inf _ => nan

/-- Sum of pairwise products, mirroring the indexed reduce
`sum + x * yValues[i]` of `linearRegression` (call sites pass lists of
equal length). -/
def sumXY (xValues yValues : List ℚ) : ℚ :=
  ((xValues.zip yValues).map fun p => p.1 * p.2).sum

/-- Sum of squares, mirroring `sum + x * x` of `linearRegression`. -/
def sumXX (xValues : List ℚ) : ℚ :=
  (xValues.map fun x => x * x).sum

/-- Result object of `linearRegression`. -/
structure Regression where
  slope : JSN
  intercept : JSN

/-- `linearRegression`: ordinary-least-squares slope and intercept, with
the divisions carried out in JavaScript-number arithmetic so that a zero
denominator produces `NaN` rather than an error. -/
def linearRegression (xValues yValues : List ℚ) : Regression :=
  let n : ℚ := xValues.length
  let sumX := xValues.sum
  let sumY := yValues.sum
  let slope :=
    JSN.div (JSN.num (n * sumXY xValues yValues - sumX * sumY))
      (JSN.num (n * sumXX xValues - sumX * sumX))
  let intercept :=
    JSN.div (JSN.sub (JSN.num sumY) (JSN.mul slope (JSN.num sumX))) (JSN.num n)
  { slope := slope, intercept := intercept }

/-- The value substitution of `detrendData`: a cell that is numeric and
strictly positive keeps its value, every other cell becomes 0
(`!isNaN(v) && v > 0 ? v : 0`). -/
def coerceValue (cell : Option ℚ) : ℚ :=
  match cell with
  | some v => if 0 < v then v else 0
  | none => 0

/-- A time-series row extended with the two detrended fields. -/
structure DetrendedSample where
  row : Sample
  detrendedLatency : JSN
  detrendedThroughput : JSN

/-- Result object of `detrendData`. -/
structure DetrendResult where
  data : List DetrendedSample
  latencyRegression : Regression
  throughputRegression : Regression
  latencyMean : ℚ
  throughputMean : ℚ

/-- The per-row closure of `detrendData`: subtract the fitted trend from
a substituted value that is strictly positive and re-center on the series
mean, carry the substituted value through untouched otherwise. -/
def detrendRow (latencyRegression throughputRegression : Regression)
    (latencyMean throughputMean : ℚ) (row : Sample) : DetrendedSample :=
  let timestamp : ℚ := (row.time : ℚ)
  let latency := coerceValue row.latency
  let throughput := coerceValue row.throughput
  let detrendedLatency :=
    if 0 < latency then
      JSN.add
        (JSN.sub (JSN.num latency)
          (JSN.add (JSN.mul latencyRegression.slope (JSN.num timestamp))
            latencyRegression.intercept))
        (JSN.num latencyMean)
    else JSN.num latency
  let detrendedThroughput :=
    if 0 < throughput then
      JSN.add
        (JSN.sub (JSN.num throughput)
          (JSN.add (JSN.mul throughputRegression.slope (JSN.num timestamp))
            throughputRegression.intercept))
        (JSN.num throughputMean)
    else JSN.num throughput
  { row := row, detrendedLatency := detrendedLatency,
    detrendedThroughput := detrendedThroughput }

/-- `detrendData`: fit a linear trend per metric over the whole series
(with non-included values substituted by 0), then subtract the trend and
re-center on the mean of the strictly positive substituted values.  The
JavaScript maps indexed arrays built from the same series; the embedding
recomputes the substituted cell value per row, which is the value at the
same index. -/
def detrendData (timeSeriesData : List Sample) : DetrendResult :=
  let timestamps : List ℚ := timeSeriesData.map fun row => (row.time : ℚ)
  let latencyValues : List ℚ := timeSeriesData.map fun row => coerceValue row.latency
  let throughputValues : List ℚ := timeSeriesData.map fun row => coerceValue row.throughput
  let latencyRegression := linearRegression timestamps latencyValues
  let throughputRegression := linearRegression timestamps throughputValues
  let latencyMean := mean (latencyValues.filter fun v => decide (0 < v))
  let throughputMean := mean (throughputValues.filter fun v => decide (0 < v))
  let data := timeSeriesData.map
    (detrendRow latencyRegression throughputRegression latencyMean throughputMean)
  { data := data, latencyRegression := latencyRegression,
    throughputRegression := throughputRegression,
    latencyMean := latencyMean, throughputMean := throughputMean }

/-- One output row of `analyzeWithLocalBaseline`.  Formatted numeric
strings are modelled by their rational value; `none` models the literal
string `N/A`; the `Failures Detected` cell is `some true` for `YES`,
`some false` for `NO` and `none` for `N/A`. -/
structure LocalRow where
  pod : String
  terminationTime : ℤ
  status : String
  samplesBefore : ℕ
  samplesAfter : ℕ
  beforeLatencyMean : Option ℚ
  afterLatencyMean : Option ℚ
  latencyChange : Option ℚ
  latencySignificance : Option Significance
  beforeThroughputMean : Option ℚ
  afterThroughputMean : Option ℚ
  throughputChange : Option ℚ
  throughputSignificance : Option Significance
  failuresDetected : Option Bool
  deriving DecidableEq

/-- The loop body of `analyzeWithLocalBaseline` for a single termination:
first the no-before-data branch (`!metricsBefore || latency.count === 0`),
then the no-after-data branch, then the full comparison. -/
noncomputable def localAnalyzeEvent (timeSeriesData : List Sample)
    (beforeWindowSeconds afterWindowSeconds : ℤ) (termination : Termination) :
    LocalRow :=
  let metricsBefore :=
    getMetricsBeforeTermination timeSeriesData termination.time beforeWindowSeconds
  let metricsAfter :=
    getMetricsAfterTermination timeSeriesData termination.time afterWindowSeconds
  let noBeforeRow : LocalRow :=
    { pod := termination.pod, terminationTime := termination.time,
      status := termination.status,
      samplesBefore := 0,
      samplesAfter := match metricsAfter with
        | some a => a.latency.count
        | none => 0,
      beforeLatencyMean := none, afterLatencyMean := none,
      latencyChange := none, latencySignificance := none,
      beforeThroughputMean := none, afterThroughputMean := none,
      throughputChange := none, throughputSignificance := none,
      failuresDetected := match metricsAfter with
        | some a => if a.hasFailures then some true else none
        | none => none }
  match metricsBefore with
  | none => noBeforeRow
  | some b =>
    if b.latency.count = 0 then noBeforeRow
    else
      let noAfterRow : LocalRow :=
        { pod := termination.pod, terminationTime := termination.time,
          status := termination.status,
          samplesBefore := b.latency.count, samplesAfter := 0,
          beforeLatencyMean := some b.latency.mean, afterLatencyMean := none,
          latencyChange := none, latencySignificance := none,
          beforeThroughputMean := some b.throughput.mean, afterThroughputMean := none,
          throughputChange := none, throughputSignificance := none,
          failuresDetected := none }
      match metricsAfter with
      | none => noAfterRow
      | some a =>
        if a.latency.count = 0 then noAfterRow
        else
          let latencyChange := calculatePercentageChange a.latency.mean b.latency.mean
          let throughputChange := calculatePercentageChange a.throughput.mean b.throughput.mean
          { pod := termination.pod, terminationTime := termination.time,
            status := termination.status,
            samplesBefore := b.latency.count, samplesAfter := a.latency.count,
            beforeLatencyMean := some b.latency.mean,
            afterLatencyMean := some a.latency.mean,
            latencyChange := some latencyChange,
            latencySignificance := some (assessSignificance latencyChange),
            beforeThroughputMean := some b.throughput.mean,
            afterThroughputMean := some a.throughput.mean,
            throughputChange := some throughputChange,
            throughputSignificance := some (assessSignificance throughputChange),
            failuresDetected := some a.hasFailures }

/-- `analyzeWithLocalBaseline`: iterate the events in order, pushing one
row per event onto the result array. -/
noncomputable def analyzeWithLocalBaseline (timeSeriesData : List Sample)
    (podTerminations : List Termination)
    (beforeWindowSeconds afterWindowSeconds : ℤ) : List LocalRow :=
  podTerminations.foldl
    (fun results termination =>
      results ++
        [localAnalyzeEvent timeSeriesData beforeWindowSeconds afterWindowSeconds
          termination])
    []

/-- Summary statistics of one metric of the global baseline
(`calculateBaselineStats` output shape). -/
structure StatSummary where
  mean : ℚ
  stdDev : ℝ
  count : ℕ

/-- Global baseline statistics for both metrics. -/
structure BaselineStats where
  latency : StatSummary
  throughput : StatSummary

/-- One output row of `analyzeWithGlobalBaseline`, with the same `N/A`
conventions as `LocalRow`. -/
structure GlobalRow where
  pod : String
  terminationTime : ℤ
  status : String
  samplesAfter : ℕ
  baselineLatencyMean : ℚ
  afterLatencyMean : Option ℚ
  latencyChange : Option ℚ
  latencySignificance : Option Significance
  baselineThroughputMean : ℚ
  afterThroughputMean : Option ℚ
  throughputChange : Option ℚ
  throughputSignificance : Option Significance
  failuresDetected : Option Bool
  deriving DecidableEq

/-- The loop body of `analyzeWithGlobalBaseline` for a single
termination. -/
def globalAnalyzeEvent (timeSeriesData : List Sample)
    (baselineStats : BaselineStats) (windowSeconds : ℤ)
    (termination : Termination) : GlobalRow :=
  let metricsAfter :=
    getMetricsAfterTermination timeSeriesData termination.time windowSeconds
  let noAfterRow : GlobalRow :=
    { pod := termination.pod, terminationTime := termination.time,
      status := termination.status,
      samplesAfter := 0,
      baselineLatencyMean := baselineStats.latency.mean,
      afterLatencyMean := none, latencyChange := none, latencySignificance := none,
      baselineThroughputMean := baselineStats.throughput.mean,
      afterThroughputMean := none, throughputChange := none,
      throughputSignificance := none, failuresDetected := none }
  match metricsAfter with
  | none => noAfterRow
  | some a =>
    if a.latency.count = 0 then noAfterRow
    else
      let latencyChange := calculatePercentageChange a.latency.mean baselineStats.latency.mean
      let throughputChange :=
        calculatePercentageChange a.throughput.mean baselineStats.throughput.mean
      { pod := termination.pod, terminationTime := termination.time,
        status := termination.status,
        samplesAfter := a.latency.count,
        baselineLatencyMean := baselineStats.latency.mean,
        afterLatencyMean := some a.latency.mean,
        latencyChange := some latencyChange,
        latencySignificance := some (assessSignificance latencyChange),
        baselineThroughputMean := baselineStats.throughput.mean,
        afterThroughputMean := some a.throughput.mean,
        throughputChange := some throughputChange,
        throughputSignificance := some (assessSignificance throughputChange),
        failuresDetected := some a.hasFailures }

/-- `analyzeWithGlobalBaseline`: iterate the events in order, pushing one
row per event onto the result array. -/
def analyzeWithGlobalBaseline (timeSeriesData : List Sample)
    (podTerminations : List Termination) (baselineStats : BaselineStats)
    (windowSeconds : ℤ) : List GlobalRow :=
  podTerminations.foldl
    (fun results termination =>
      results ++ [globalAnalyzeEvent timeSeriesData baselineStats windowSeconds termination])
    []

/-- OLS numerator as computed by `linearRegression`
(`n * sumXY - sumX * sumY`). -/
def regNumer (xValues yValues : List ℚ) : ℚ :=
  (xValues.length : ℚ) * sumXY xValues yValues - xValues.sum * yValues.sum

/-- OLS denominator as computed by `linearRegression`
(`n * sumXX - sumX * sumX`). -/
def regDenom (xValues : List ℚ) : ℚ :=
  (xValues.length : ℚ) * sumXX xValues - xValues.sum * xValues.sum

/-- The rational value of the OLS slope (meaningful when `regDenom` is
non-zero). -/
def slopeQ (xValues yValues : List ℚ) : ℚ :=
  regNumer xValues yValues / regDenom xValues

/-- The rational value of the OLS intercept (meaningful when `regDenom`
and the length are non-zero). -/
def interceptQ (xValues yValues : List ℚ) : ℚ :=
  (yValues.sum - slopeQ xValues yValues * xValues.sum) / (xValues.length : ℚ)

/-- Timestamps of a series, as rationals, in series order. -/
def seriesTimes (timeSeriesData : List Sample) : List ℚ :=
  timeSeriesData.map fun row => (row.time : ℚ)

/-- Substituted metric values of a series, in series order. -/
def coercedValues (timeSeriesData : List Sample) (metric : Sample → Option ℚ) :
    List ℚ :=
  timeSeriesData.map fun row => coerceValue (metric row)

/-- Modelled from the spec: the claim of section 4.5 fits the per-metric
OLS regression over only the included (numeric, strictly positive) samples
and carries every excluded or missing value through unchanged.  This
definition follows that wording and is compared against the
implementation `detrendData`. -/
def includedPoints (timeSeriesData : List Sample) (metric : Sample → Option ℚ) :
    List (ℚ × ℚ) :=
  timeSeriesData.filterMap fun row =>
    match metric row with
    | some v => if 0 < v then some ((row.time : ℚ), v) else none
    | none => none

/-- Modelled from the spec: per-sample detrended value under the claimed
contract, `raw - (slope * timestamp + intercept) + seriesMean` for
included samples and the unchanged raw cell otherwise, with the fit taken
over included samples only. -/
def detrendMetricSpec (timeSeriesData : List Sample) (metric : Sample → Option ℚ) :
    List (Option ℚ) :=
  let pts := includedPoints timeSeriesData metric
  let slope := slopeQ (pts.map Prod.fst) (pts.map Prod.snd)
  let intercept := interceptQ (pts.map Prod.fst) (pts.map Prod.snd)
  let seriesMean := mean (pts.map Prod.snd)
  timeSeriesData.map fun row =>
    (metric row).map fun v =>
      if 0 < v then v - (slope * (row.time : ℚ) + intercept) + seriesMean else v

/-- The five-sample series of the spec scenario in section 8: latency
100, 100, 100 at 0 ms, 1000 ms, 2000 ms and 500, 500 at 3000 ms,
4000 ms. -/
def specSeries : List Sample :=
  [⟨0, some 100, none, []⟩, ⟨1000, some 100, none, []⟩, ⟨2000, some 100, none, []⟩,
   ⟨3000, some 500, none, []⟩, ⟨4000, some 500, none, []⟩]

/-- A three-sample series whose third latency cell is negative, hence
excluded by the inclusion policy; used to separate the implemented
detrender from the claimed one. -/
def negTailSeries : List Sample :=
  [⟨0, some 100, none, []⟩, ⟨1000, some 200, none, []⟩, ⟨2000, some (-1), none, []⟩]

/-- A two-sample series whose samples share one timestamp, so that the
regression denominator vanishes. -/
def sameTimeSeries : List Sample := [⟨5, some 3, none, []⟩, ⟨5, some 7, none, []⟩]

/-- Two samples used to exercise the aggregator: latencies 2 and 4, both
included. -/
def aggRows : List Sample := [⟨0, some 2, none, []⟩, ⟨1, some 4, none, []⟩]

/-- A single event far before the scenario data, so that both windows are
empty. -/
def earlyEvent : Termination := ⟨"pod-a", -10000, "DELETED"⟩

/-- A series whose single before-window sample has an excluded latency
but an includable throughput, and whose after-window sample is the same
shape. -/
def gateSeries : List Sample :=
  [⟨1000, some (-1), some 5, []⟩, ⟨2500, some (-2), some 6, []⟩]

/-- An event between the two `gateSeries` samples. -/
def gateEvent : Termination := ⟨"pod-b", 2000, "DELETED"⟩

end AvailTest

namespace AvailTest

/-- C1: the spec scenario on `specSeries` with event time 2500, before
window 3 s and after window 2 s.  The before mean is 100 and the after
mean 500 as claimed, but the percentage change computed by
`calculatePercentageChange` is 400, not the +300 stated by the claim. -/
theorem C1_scenario_cex :
    (getMetricsBeforeTermination specSeries 2500 3).map (fun b => b.latency.mean)
      = some 100 ∧
    (getMetricsAfterTermination specSeries 2500 2).map (fun a => a.latency.mean)
      = some 500 ∧
    calculatePercentageChange 500 100 ≠ 300 := by
  refine ⟨?_, ?_, ?_⟩
  · norm_num [getMetricsBeforeTermination, beforeData, includedValues, mean, specSeries,
      List.filterMap_cons]
  · norm_num [getMetricsAfterTermination, afterData, includedValues, mean, specSeries,
      List.filterMap_cons]
  · norm_num [calculatePercentageChange]

/-- C1 (amended): the spec scenario yields a before mean of 100, an after
mean of 500, a percentage change of +400 and the label Highly
Significant. -/
theorem C1_scenario :
    (getMetricsBeforeTermination specSeries 2500 3).map (fun b => b.latency.mean)
      = some 100 ∧
    (getMetricsAfterTermination specSeries 2500 2).map (fun a => a.latency.mean)
      = some 500 ∧
    calculatePercentageChange 500 100 = 400 ∧
    assessSignificance (calculatePercentageChange 500 100)
      = Significance.highlySignificant := by
  refine ⟨?_, ?_, ?_, ?_⟩
  · norm_num [getMetricsBeforeTermination, beforeData, includedValues, mean, specSeries,
      List.filterMap_cons]
  · norm_num [getMetricsAfterTermination, afterData, includedValues, mean, specSeries,
      List.filterMap_cons]
  · norm_num [calculatePercentageChange]
  · norm_num [calculatePercentageChange, assessSignificance]

/-- C2: the before window is exactly the samples with
`t - w * 1000 ≤ timestamp < t`, the after window exactly those with
`t < timestamp ≤ t + w * 1000`, and neither window contains a sample
whose timestamp equals the event time. -/
theorem C2_window_bounds (timeSeriesData : List Sample) (t w : ℤ) (s : Sample) :
    (s ∈ beforeData timeSeriesData t w ↔
      s ∈ timeSeriesData ∧ t - w * 1000 ≤ s.time ∧ s.time < t) ∧
    (s ∈ afterData timeSeriesData t w ↔
      s ∈ timeSeriesData ∧ t < s.time ∧ s.time ≤ t + w * 1000) ∧
    (s ∈ beforeData timeSeriesData t w → s.time ≠ t) ∧
    (s ∈ afterData timeSeriesData t w → s.time ≠ t) := by
  have hb : s ∈ beforeData timeSeriesData t w ↔
      s ∈ timeSeriesData ∧ t - w * 1000 ≤ s.time ∧ s.time < t := by
    simp [beforeData, List.mem_filter]
  have ha : s ∈ afterData timeSeriesData t w ↔
      s ∈ timeSeriesData ∧ t < s.time ∧ s.time ≤ t + w * 1000 := by
    simp [afterData, List.mem_filter]
  refine ⟨hb, ha, ?_, ?_⟩
  · intro hmem
    exact ne_of_lt ((hb.mp hmem).2.2)
  · intro hmem
    exact ne_of_gt ((ha.mp hmem).2.1)

/-- Witness for C2 at the scenario series: the sample at 2000 ms lies in
the 3 s before window of the event at 2500 ms and its timestamp differs
from the event time. -/
theorem C2_window_bounds_witness :
    (⟨2000, some 100, none, []⟩ : Sample) ∈ beforeData specSeries 2500 3 ∧
    (⟨2000, some 100, none, []⟩ : Sample).time ≠ 2500 :=
  ⟨by decide,
    (C2_window_bounds specSeries 2500 3 ⟨2000, some 100, none, []⟩).2.2.1 (by decide)⟩

/-- C3: numeric tokens above 10^12 pass through unchanged, numeric tokens
not exceeding 10^12 are multiplied by 1000, date tokens resolve to their
epoch milliseconds — but an unparseable token does NOT fail: the
implementation returns the `NaN` of `new Date(...).getTime()` where the
claim demands a `TimestampParseError`. -/
theorem C3_invalid_cex :
    parseTimestamp RawTimestamp.invalidToken = JSTime.nan ∧
    parseTimestampSpec RawTimestamp.invalidToken = Except.error () :=
  ⟨rfl, rfl⟩

/-- C3 (amended): the numeric and date branches behave as claimed, and on
a token that parses neither as a number nor as a date the normalizer
returns the `NaN` time value instead of failing. -/
theorem C3_parse_behavior (tok : RawTimestamp) :
    (∀ n : ℤ, tok = RawTimestamp.intToken n →
      (1000000000000 < n → parseTimestamp tok = JSTime.val n) ∧
      (n ≤ 1000000000000 → parseTimestamp tok = JSTime.val (n * 1000))) ∧
    (∀ ms : ℤ, tok = RawTimestamp.dateToken ms → parseTimestamp tok = JSTime.val ms) ∧
    (tok = RawTimestamp.invalidToken → parseTimestamp tok = JSTime.nan) := by
  refine ⟨?_, ?_, ?_⟩
  · rintro n rfl
    constructor
    · intro h
      simp [parseTimestamp, h]
    · intro h
      simp [parseTimestamp, not_lt.mpr h]
  · rintro ms rfl
    simp [parseTimestamp]
  · rintro rfl
    simp [parseTimestamp]

/-- Witness for C3 on concrete tokens from both numeric branches and the
invalid branch. -/
theorem C3_parse_behavior_witness :
    parseTimestamp (RawTimestamp.intToken 1700000000000) = JSTime.val 1700000000000 ∧
    parseTimestamp (RawTimestamp.intToken 1700000000) = JSTime.val 1700000000000 ∧
    parseTimestamp RawTimestamp.invalidToken = JSTime.nan :=
  ⟨((C3_parse_behavior (RawTimestamp.intToken 1700000000000)).1 1700000000000 rfl).1
      (by decide),
    by
      have h := ((C3_parse_behavior (RawTimestamp.intToken 1700000000)).1 1700000000 rfl).2
        (by decide)
      simpa using h,
    (C3_parse_behavior RawTimestamp.invalidToken).2.2 rfl⟩

/-- C4: a zero standard deviation and a zero baseline mean are guarded:
the z-score and the percentage change are defined as 0, and the
degenerate values feed the classifiers as plain zeros, yielding the label
Not Significant rather than a propagated `NaN`. -/
theorem C4_zero_guards (v m : ℚ) :
    calculateZScore v m 0 = 0 ∧
    calculatePercentageChange v 0 = 0 ∧
    assessSignificanceByZScore (calculateZScore v m 0) = Significance.notSignificant ∧
    assessSignificance (calculatePercentageChange v 0) = Significance.notSignificant := by
  refine ⟨?_, ?_, ?_, ?_⟩ <;>
    norm_num [calculateZScore, calculatePercentageChange, assessSignificance,
      assessSignificanceByZScore]

/-- A value appears in the included list exactly when some sample carries
it as a parsed, strictly positive cell. -/
lemma mem_includedValues (rows : List Sample) (metric : Sample → Option ℚ) (v : ℚ) :
    v ∈ includedValues rows metric ↔ ∃ s ∈ rows, metric s = some v ∧ 0 < v := by
  simp only [includedValues, List.mem_filterMap]
  constructor
  · rintro ⟨s, hs, hv⟩
    cases hmet : metric s with
    | none =>
      rw [hmet] at hv
      cases hv
    | some w =>
      rw [hmet] at hv
      change (if 0 < w then some w else none) = some v at hv
      by_cases hw : 0 < w
      · rw [if_pos hw] at hv
        cases hv
        exact ⟨s, hs, hmet, hw⟩
      · rw [if_neg hw] at hv
        cases hv
  · rintro ⟨s, hs, hm, hp⟩
    refine ⟨s, hs, ?_⟩
    rw [hm]
    change (if 0 < v then some v else none) = some v
    rw [if_pos hp]

/-- The mean of a non-empty list is its sum over its length. -/
lemma mean_eq_sum_div (values : List ℚ) (h : values ≠ []) :
    mean values = values.sum / (values.length : ℚ) := by
  rw [mean, if_neg]
  simpa [List.length_eq_zero] using h

/-- The mean of a list of non-negative values is non-negative. -/
lemma mean_nonneg (values : List ℚ) (h : ∀ x ∈ values, 0 ≤ x) : 0 ≤ mean values := by
  rw [mean]
  split
  · exact le_refl 0
  · exact div_nonneg (List.sum_nonneg h) (by positivity)

/-- The standard deviation is always non-negative. -/
lemma stdDev_nonneg (values : List ℚ) : 0 ≤ stdDev values := by
  rw [stdDev]
  split
  · exact le_refl 0
  · exact Real.sqrt_nonneg _

/-- On a non-empty list, the square of the standard deviation is the mean
squared difference from the mean. -/
lemma stdDev_sq (values : List ℚ) (h : values ≠ []) :
    stdDev values ^ 2
      = ((mean (values.map fun v => (v - mean values) ^ 2) : ℚ) : ℝ) := by
  rw [stdDev, if_neg (by simpa [List.length_eq_zero] using h)]
  refine Real.sq_sqrt ?_
  rw [Rat.cast_nonneg]
  refine mean_nonneg _ ?_
  intro x hx
  obtain ⟨v, _, rfl⟩ := List.mem_map.mp hx
  positivity

/-- C5: the aggregator includes exactly the parsed, strictly positive
values; over a non-empty included set it computes the arithmetic mean and
the population standard deviation (squared deviation summed and divided
by the count, with no Bessel correction); an empty included set yields
count 0, mean 0 and standard deviation 0 without failing. -/
theorem C5_aggregate (rows : List Sample) (metric : Sample → Option ℚ) :
    (∀ v : ℚ, v ∈ includedValues rows metric ↔
      ∃ s ∈ rows, metric s = some v ∧ 0 < v) ∧
    (includedValues rows metric ≠ [] →
      mean (includedValues rows metric)
        = (includedValues rows metric).sum
            / ((includedValues rows metric).length : ℚ) ∧
      stdDev (includedValues rows metric) ^ 2
        = ((((includedValues rows metric).map
              (fun v => (v - mean (includedValues rows metric)) ^ 2)).sum
            / ((includedValues rows metric).length : ℚ) : ℚ) : ℝ) ∧
      0 ≤ stdDev (includedValues rows metric)) ∧
    (includedValues rows metric = [] →
      (includedValues rows metric).length = 0 ∧
      mean (includedValues rows metric) = 0 ∧
      stdDev (includedValues rows metric) = 0) := by
  refine ⟨mem_includedValues rows metric, ?_, ?_⟩
  · intro h
    refine ⟨mean_eq_sum_div _ h, ?_, stdDev_nonneg _⟩
    rw [stdDev_sq _ h, mean_eq_sum_div _ (by simpa [List.map_eq_nil_iff] using h),
      List.length_map]
  · intro h
    rw [h]
    refine ⟨rfl, rfl, ?_⟩
    simp [stdDev]

/-- Witness for C5 on `aggRows`: the included latency list is non-empty
and its mean is its sum over its length. -/
theorem C5_aggregate_witness :
    includedValues aggRows Sample.latency ≠ [] ∧
    mean (includedValues aggRows Sample.latency)
      = (includedValues aggRows Sample.latency).sum
          / ((includedValues aggRows Sample.latency).length : ℚ) :=
  ⟨by decide, ((C5_aggregate aggRows Sample.latency).2.1 (by decide)).1⟩

/-- Pushing one image element per step onto an accumulator is mapping. -/
lemma foldl_push_eq_map {α β : Type} (f : α → β) :
    ∀ (l : List α) (acc : List β),
      l.foldl (fun results a => results ++ [f a]) acc = acc ++ l.map f
  | [], acc => by simp
  | a :: l, acc => by
    rw [List.foldl_cons, foldl_push_eq_map f l (acc ++ [f a])]
    simp

/-- An empty before window makes `getMetricsBeforeTermination` return
`null`. -/
lemma getMetricsBefore_none (ts : List Sample) (t w : ℤ)
    (h : beforeData ts t w = []) : getMetricsBeforeTermination ts t w = none := by
  simp [getMetricsBeforeTermination, h]

/-- On a non-empty before window, `getMetricsBeforeTermination` returns
the aggregated statistics of the window. -/
lemma getMetricsBefore_some (ts : List Sample) (t w : ℤ)
    (h : beforeData ts t w ≠ []) :
    getMetricsBeforeTermination ts t w = some
      { latency :=
          { mean := mean (includedValues (beforeData ts t w) Sample.latency),
            stdDev := stdDev (includedValues (beforeData ts t w) Sample.latency),
            values := includedValues (beforeData ts t w) Sample.latency,
            count := (includedValues (beforeData ts t w) Sample.latency).length },
        throughput :=
          { mean := mean (includedValues (beforeData ts t w) Sample.throughput),
            stdDev := stdDev (includedValues (beforeData ts t w) Sample.throughput),
            values := includedValues (beforeData ts t w) Sample.throughput,
            count := (includedValues (beforeData ts t w) Sample.throughput).length },
        windowSeconds := w } := by
  rw [getMetricsBeforeTermination]
  simp [List.length_eq_zero, h]

/-- An empty after window makes `getMetricsAfterTermination` return
`null`. -/
lemma getMetricsAfter_none (ts : List Sample) (t w : ℤ)
    (h : afterData ts t w = []) : getMetricsAfterTermination ts t w = none := by
  simp [getMetricsAfterTermination, h]

/-- On a non-empty after window, `getMetricsAfterTermination` returns the
aggregated statistics plus the failure flag of the window. -/
lemma getMetricsAfter_some (ts : List Sample) (t w : ℤ)
    (h : afterData ts t w ≠ []) :
    getMetricsAfterTermination ts t w = some
      { latency :=
          { mean := mean (includedValues (afterData ts t w) Sample.latency),
            values := includedValues (afterData ts t w) Sample.latency,
            count := (includedValues (afterData ts t w) Sample.latency).length },
        throughput :=
          { mean := mean (includedValues (afterData ts t w) Sample.throughput),
            values := includedValues (afterData ts t w) Sample.throughput,
            count := (includedValues (afterData ts t w) Sample.throughput).length },
        windowSeconds := w,
        hasFailures := hasFailuresIn (afterData ts t w) } := by
  rw [getMetricsAfterTermination]
  simp [List.length_eq_zero, h]

/-- An event with no included latency value in its before window takes
the first `N/A` branch of the local analysis. -/
lemma localAnalyzeEvent_noBefore (ts : List Sample) (bw aw : ℤ) (e : Termination)
    (h : includedValues (beforeData ts e.time bw) Sample.latency = []) :
    (localAnalyzeEvent ts bw aw e).samplesBefore = 0 ∧
    (localAnalyzeEvent ts bw aw e).beforeLatencyMean = none ∧
    (localAnalyzeEvent ts bw aw e).afterLatencyMean = none ∧
    (localAnalyzeEvent ts bw aw e).latencyChange = none ∧
    (localAnalyzeEvent ts bw aw e).latencySignificance = none ∧
    (localAnalyzeEvent ts bw aw e).beforeThroughputMean = none ∧
    (localAnalyzeEvent ts bw aw e).afterThroughputMean = none ∧
    (localAnalyzeEvent ts bw aw e).throughputChange = none ∧
    (localAnalyzeEvent ts bw aw e).throughputSignificance = none := by
  by_cases hbd : beforeData ts e.time bw = []
  · simp [localAnalyzeEvent, getMetricsBefore_none ts e.time bw hbd]
  · simp [localAnalyzeEvent, getMetricsBefore_some ts e.time bw hbd, h]

/-- An event with usable before data but no included latency value in its
after window takes the second `N/A` branch of the local analysis. -/
lemma localAnalyzeEvent_noAfter (ts : List Sample) (bw aw : ℤ) (e : Termination)
    (hb : includedValues (beforeData ts e.time bw) Sample.latency ≠ [])
    (ha : includedValues (afterData ts e.time aw) Sample.latency = []) :
    (localAnalyzeEvent ts bw aw e).samplesAfter = 0 ∧
    (localAnalyzeEvent ts bw aw e).afterLatencyMean = none ∧
    (localAnalyzeEvent ts bw aw e).latencyChange = none ∧
    (localAnalyzeEvent ts bw aw e).latencySignificance = none ∧
    (localAnalyzeEvent ts bw aw e).afterThroughputMean = none ∧
    (localAnalyzeEvent ts bw aw e).throughputChange = none ∧
    (localAnalyzeEvent ts bw aw e).throughputSignificance = none ∧
    (localAnalyzeEvent ts bw aw e).beforeLatencyMean
      = some (mean (includedValues (beforeData ts e.time bw) Sample.latency)) ∧
    (localAnalyzeEvent ts bw aw e).beforeThroughputMean
      = some (mean (includedValues (beforeData ts e.time bw) Sample.throughput)) := by
  have hbd : beforeData ts e.time bw ≠ [] := by
    intro hc
    apply hb
    rw [hc]
    rfl
  by_cases had : afterData ts e.time aw = []
  · simp [localAnalyzeEvent, getMetricsBefore_some ts e.time bw hbd,
      getMetricsAfter_none ts e.time aw had, List.length_eq_zero, hb]
  · simp [localAnalyzeEvent, getMetricsBefore_some ts e.time bw hbd,
      getMetricsAfter_some ts e.time aw had, List.length_eq_zero, hb, ha]

/-- Every branch of the local analysis copies the pod name of the
event. -/
lemma localAnalyzeEvent_pod (ts : List Sample) (bw aw : ℤ) (e : Termination) :
    (localAnalyzeEvent ts bw aw e).pod = e.pod := by
  simp only [localAnalyzeEvent]
  cases hB : getMetricsBeforeTermination ts e.time bw with
  | none => rfl
  | some b =>
    by_cases h1 : b.latency.count = 0
    · simp [h1]
    · cases hA : getMetricsAfterTermination ts e.time aw with
      | none => simp [h1]
      | some a => by_cases h2 : a.latency.count = 0 <;> simp [h1, h2]

/-- An event with no included latency value in its after window takes the
`N/A` branch of the global analysis. -/
lemma globalAnalyzeEvent_noAfter (ts : List Sample) (bs : BaselineStats) (w : ℤ)
    (e : Termination)
    (ha : includedValues (afterData ts e.time w) Sample.latency = []) :
    (globalAnalyzeEvent ts bs w e).samplesAfter = 0 ∧
    (globalAnalyzeEvent ts bs w e).afterLatencyMean = none ∧
    (globalAnalyzeEvent ts bs w e).latencyChange = none ∧
    (globalAnalyzeEvent ts bs w e).latencySignificance = none ∧
    (globalAnalyzeEvent ts bs w e).afterThroughputMean = none ∧
    (globalAnalyzeEvent ts bs w e).throughputChange = none ∧
    (globalAnalyzeEvent ts bs w e).throughputSignificance = none := by
  by_cases had : afterData ts e.time w = []
  · simp [globalAnalyzeEvent, getMetricsAfter_none ts e.time w had]
  · simp [globalAnalyzeEvent, getMetricsAfter_some ts e.time w had,
      List.length_eq_zero, ha]

/-- Every branch of the global analysis copies the pod name of the
event. -/
lemma globalAnalyzeEvent_pod (ts : List Sample) (bs : BaselineStats) (w : ℤ)
    (e : Termination) : (globalAnalyzeEvent ts bs w e).pod = e.pod := by
  simp only [globalAnalyzeEvent]
  cases hA : getMetricsAfterTermination ts e.time w with
  | none => rfl
  | some a => by_cases h2 : a.latency.count = 0 <;> simp [h2]

/-- C8: both analysis methods map the event list to exactly one result
row per event, in order, preserving the pod identity; an event whose
before or after window yields no usable latency data still produces its
row, with `N/A` markers on every uncomputable statistic, and processing
of the remaining events is unaffected (the result is a total map over the
event list). -/
theorem C8_one_row_per_event (ts : List Sample) (events : List Termination)
    (bw aw w : ℤ) (bs : BaselineStats) :
    analyzeWithLocalBaseline ts events bw aw
      = events.map (localAnalyzeEvent ts bw aw) ∧
    (analyzeWithLocalBaseline ts events bw aw).length = events.length ∧
    analyzeWithGlobalBaseline ts events bs w
      = events.map (globalAnalyzeEvent ts bs w) ∧
    (analyzeWithGlobalBaseline ts events bs w).length = events.length ∧
    (∀ e : Termination,
      (localAnalyzeEvent ts bw aw e).pod = e.pod ∧
      (globalAnalyzeEvent ts bs w e).pod = e.pod) ∧
    (∀ e : Termination,
      includedValues (beforeData ts e.time bw) Sample.latency = [] →
      (localAnalyzeEvent ts bw aw e).beforeLatencyMean = none ∧
      (localAnalyzeEvent ts bw aw e).latencyChange = none ∧
      (localAnalyzeEvent ts bw aw e).latencySignificance = none) ∧
    (∀ e : Termination,
      includedValues (beforeData ts e.time bw) Sample.latency ≠ [] →
      includedValues (afterData ts e.time aw) Sample.latency = [] →
      (localAnalyzeEvent ts bw aw e).afterLatencyMean = none ∧
      (localAnalyzeEvent ts bw aw e).latencyChange = none ∧
      (localAnalyzeEvent ts bw aw e).latencySignificance = none) ∧
    (∀ e : Termination,
      includedValues (afterData ts e.time w) Sample.latency = [] →
      (globalAnalyzeEvent ts bs w e).afterLatencyMean = none ∧
      (globalAnalyzeEvent ts bs w e).latencyChange = none ∧
      (globalAnalyzeEvent ts bs w e).latencySignificance = none) := by
  have hloc : analyzeWithLocalBaseline ts events bw aw
      = events.map (localAnalyzeEvent ts bw aw) := by
    rw [analyzeWithLocalBaseline, foldl_push_eq_map, List.nil_append]
  have hglo : analyzeWithGlobalBaseline ts events bs w
      = events.map (globalAnalyzeEvent ts bs w) := by
    rw [analyzeWithGlobalBaseline, foldl_push_eq_map, List.nil_append]
  refine ⟨hloc, by rw [hloc, List.length_map], hglo, by rw [hglo, List.length_map],
    fun e => ⟨localAnalyzeEvent_pod ts bw aw e, globalAnalyzeEvent_pod ts bs w e⟩,
    ?_, ?_, ?_⟩
  · intro e h
    obtain ⟨-, h2, -, h4, h5, -⟩ := localAnalyzeEvent_noBefore ts bw aw e h
    exact ⟨h2, h4, h5⟩
  · intro e hb ha
    obtain ⟨-, h2, h3, h4, -⟩ := localAnalyzeEvent_noAfter ts bw aw e hb ha
    exact ⟨h2, h3, h4⟩
  · intro e ha
    obtain ⟨-, h2, h3, h4, -⟩ := globalAnalyzeEvent_noAfter ts bs w e ha
    exact ⟨h2, h3, h4⟩

/-- Witness for C8: on the scenario series with one early event, the
local analysis equals the one-row map and that row carries the `N/A`
latency markers. -/
theorem C8_one_row_per_event_witness :
    analyzeWithLocalBaseline specSeries [earlyEvent] 3 2
      = [earlyEvent].map (localAnalyzeEvent specSeries 3 2) ∧
    (localAnalyzeEvent specSeries 3 2 earlyEvent).latencySignificance = none :=
  ⟨(C8_one_row_per_event specSeries [earlyEvent] 3 2 2
      ⟨⟨100, 0, 3⟩, ⟨50, 0, 3⟩⟩).1,
    ((C8_one_row_per_event specSeries [earlyEvent] 3 2 2
      ⟨⟨100, 0, 3⟩, ⟨50, 0, 3⟩⟩).2.2.2.2.2.1 earlyEvent (by decide)).2.2⟩

/-- C10: the `N/A` decision is gated solely by the latency count: a
window that has samples and includable throughput values but no strictly
positive latency value still gets `N/A` for every statistic of that side,
including all throughput statistics, in both analysis methods. -/
theorem C10_latency_gate (ts : List Sample) (bw aw w : ℤ) (bs : BaselineStats) :
    (∀ e : Termination,
      beforeData ts e.time bw ≠ [] →
      includedValues (beforeData ts e.time bw) Sample.latency = [] →
      includedValues (beforeData ts e.time bw) Sample.throughput ≠ [] →
      (localAnalyzeEvent ts bw aw e).beforeThroughputMean = none ∧
      (localAnalyzeEvent ts bw aw e).afterThroughputMean = none ∧
      (localAnalyzeEvent ts bw aw e).throughputChange = none ∧
      (localAnalyzeEvent ts bw aw e).throughputSignificance = none) ∧
    (∀ e : Termination,
      includedValues (beforeData ts e.time bw) Sample.latency ≠ [] →
      afterData ts e.time aw ≠ [] →
      includedValues (afterData ts e.time aw) Sample.latency = [] →
      includedValues (afterData ts e.time aw) Sample.throughput ≠ [] →
      (localAnalyzeEvent ts bw aw e).afterThroughputMean = none ∧
      (localAnalyzeEvent ts bw aw e).throughputChange = none ∧
      (localAnalyzeEvent ts bw aw e).throughputSignificance = none) ∧
    (∀ e : Termination,
      afterData ts e.time w ≠ [] →
      includedValues (afterData ts e.time w) Sample.latency = [] →
      includedValues (afterData ts e.time w) Sample.throughput ≠ [] →
      (globalAnalyzeEvent ts bs w e).afterThroughputMean = none ∧
      (globalAnalyzeEvent ts bs w e).throughputChange = none ∧
      (globalAnalyzeEvent ts bs w e).throughputSignificance = none) := by
  refine ⟨?_, ?_, ?_⟩
  · intro e _ hlat _
    obtain ⟨-, -, -, -, -, h6, h7, h8, h9⟩ := localAnalyzeEvent_noBefore ts bw aw e hlat
    exact ⟨h6, h7, h8, h9⟩
  · intro e hb _ hlat _
    obtain ⟨-, -, -, -, h5, h6, h7, -⟩ := localAnalyzeEvent_noAfter ts bw aw e hb hlat
    exact ⟨h5, h6, h7⟩
  · intro e _ hlat _
    obtain ⟨-, -, -, -, h5, h6, h7⟩ := globalAnalyzeEvent_noAfter ts bs w e hlat
    exact ⟨h5, h6, h7⟩

/-- Witness for C10: on `gateSeries`, the before window of `gateEvent`
has a sample and a positive throughput but no positive latency, and the
local analysis reports `N/A` for the before throughput mean. -/
theorem C10_latency_gate_witness :
    beforeData gateSeries gateEvent.time 30 ≠ [] ∧
    includedValues (beforeData gateSeries gateEvent.time 30) Sample.latency = [] ∧
    includedValues (beforeData gateSeries gateEvent.time 30) Sample.throughput ≠ [] ∧
    (localAnalyzeEvent gateSeries 30 30 gateEvent).beforeThroughputMean = none :=
  ⟨by decide, by decide, by decide,
    ((C10_latency_gate gateSeries 30 30 30 ⟨⟨100, 0, 3⟩, ⟨50, 0, 3⟩⟩).1 gateEvent
      (by decide) (by decide) (by decide)).1⟩

/-- C7: both classifiers depend only on the absolute deviation and are
monotone in it: a larger magnitude never receives a lower severity tier,
on the percentage scale and on the z-score scale alike. -/
theorem C7_monotone (d1 d2 : ℚ) :
    (|d1| ≤ |d2| →
      severity (assessSignificance d1) ≤ severity (assessSignificance d2) ∧
      severity (assessSignificanceByZScore d1)
        ≤ severity (assessSignificanceByZScore d2)) ∧
    assessSignificance d1 = assessSignificance |d1| ∧
    assessSignificanceByZScore d1 = assessSignificanceByZScore |d1| := by
  refine ⟨?_, ?_, ?_⟩
  · intro h
    constructor
    · simp only [assessSignificance]
      split_ifs <;> simp [severity] <;> linarith
    · simp only [assessSignificanceByZScore]
      split_ifs <;> simp [severity] <;> linarith
  · simp [assessSignificance, abs_abs]
  · simp [assessSignificanceByZScore, abs_abs]

/-- Witness for C7 at deviations 3 and -12 on both scales. -/
theorem C7_monotone_witness :
    severity (assessSignificance 3) ≤ severity (assessSignificance (-12)) ∧
    severity (assessSignificanceByZScore 3)
      ≤ severity (assessSignificanceByZScore (-12)) :=
  (C7_monotone 3 (-12)).1 (by norm_num)

/-- Sum of squares over a cons. -/
lemma sumXX_cons (x : ℚ) (xs : List ℚ) : sumXX (x :: xs) = x * x + sumXX xs := by
  simp [sumXX]

/-- Expanding a sum of squared gaps against a fixed point. -/
lemma sum_sq_gap_expand (x : ℚ) :
    ∀ xs : List ℚ,
      (xs.map fun y => (x - y) * (x - y)).sum
        = (xs.length : ℚ) * (x * x) - 2 * x * xs.sum + sumXX xs
  | [] => by simp [sumXX]
  | y :: ys => by
    rw [List.map_cons, List.sum_cons, sum_sq_gap_expand x ys, sumXX_cons,
      List.sum_cons, List.length_cons]
    push_cast
    ring

/-- The regression denominator of the empty list is zero. -/
lemma regDenom_nil : regDenom [] = 0 := by
  simp [regDenom, sumXX]

/-- The regression denominator grows by the squared gaps of the new head
against the tail. -/
lemma regDenom_cons (x : ℚ) (xs : List ℚ) :
    regDenom (x :: xs)
      = regDenom xs + (xs.map fun y => (x - y) * (x - y)).sum := by
  rw [sum_sq_gap_expand]
  simp only [regDenom, sumXX_cons, List.sum_cons, List.length_cons]
  push_cast
  ring

/-- A sum of squared gaps is non-negative. -/
lemma gap_sum_nonneg (x : ℚ) (xs : List ℚ) :
    0 ≤ (xs.map fun y => (x - y) * (x - y)).sum := by
  refine List.sum_nonneg ?_
  intro a ha
  obtain ⟨y, -, rfl⟩ := List.mem_map.mp ha
  exact mul_self_nonneg _

/-- The regression denominator is never negative. -/
lemma regDenom_nonneg : ∀ xs : List ℚ, 0 ≤ regDenom xs
  | [] => le_of_eq regDenom_nil.symm
  | x :: xs => by
    rw [regDenom_cons]
    exact add_nonneg (regDenom_nonneg xs) (gap_sum_nonneg x xs)

/-- The regression denominator is strictly positive on a list holding two
distinct values. -/
lemma regDenom_pos :
    ∀ (xs : List ℚ) (a b : ℚ), a ∈ xs → b ∈ xs → a ≠ b → 0 < regDenom xs
  | [], a, _, ha, _, _ => absurd ha (List.not_mem_nil a)
  | x :: xs, a, b, ha, hb, hne => by
    rw [regDenom_cons]
    rcases List.mem_cons.mp ha with rfl | ha' <;>
      rcases List.mem_cons.mp hb with rfl | hb'
    · exact absurd rfl hne
    · have hterm : (0 : ℚ) < (a - b) * (a - b) :=
        mul_self_pos.mpr (sub_ne_zero.mpr hne)
      have hle : (a - b) * (a - b) ≤ (xs.map fun y => (a - y) * (a - y)).sum := by
        refine List.single_le_sum ?_ _ ?_
        · intro c hc
          obtain ⟨y, -, rfl⟩ := List.mem_map.mp hc
          exact mul_self_nonneg _
        · exact List.mem_map.mpr ⟨b, hb', rfl⟩
      have hrest := regDenom_nonneg xs
      linarith
    · have hterm : (0 : ℚ) < (b - a) * (b - a) :=
        mul_self_pos.mpr (sub_ne_zero.mpr (Ne.symm hne))
      have hle : (b - a) * (b - a) ≤ (xs.map fun y => (b - y) * (b - y)).sum := by
        refine List.single_le_sum ?_ _ ?_
        · intro c hc
          obtain ⟨y, -, rfl⟩ := List.mem_map.mp hc
          exact mul_self_nonneg _
        · exact List.mem_map.mpr ⟨a, ha', rfl⟩
      have hrest := regDenom_nonneg xs
      linarith
    · have hpos := regDenom_pos xs a b ha' hb' hne
      have hgap := gap_sum_nonneg x xs
      linarith

/-- A non-zero regression denominator forces a non-empty list of
x-values. -/
lemma length_ne_zero_of_regDenom (x : List ℚ) (h : regDenom x ≠ 0) :
    (x.length : ℚ) ≠ 0 := by
  intro hlen
  apply h
  have hx : x = [] := by
    cases x with
    | nil => rfl
    | cons a l =>
      exfalso
      simp only [List.length_cons, Nat.cast_add, Nat.cast_one] at hlen
      have hnn : (0 : ℚ) ≤ (l.length : ℚ) := Nat.cast_nonneg _
      linarith
  rw [hx, regDenom_nil]

/-- With a non-zero denominator, the regression produces the finite OLS
slope and intercept. -/
lemma linearRegression_num (x y : List ℚ) (h : regDenom x ≠ 0) :
    (linearRegression x y).slope = JSN.num (slopeQ x y) ∧
    (linearRegression x y).intercept = JSN.num (interceptQ x y) := by
  have hn := length_ne_zero_of_regDenom x h
  have hB : ((x.length : ℚ) * sumXX x - x.sum * x.sum) ≠ 0 := by
    simpa [regDenom] using h
  constructor
  · simp [linearRegression, JSN.div, hB, slopeQ, regNumer, regDenom]
  · simp [linearRegression, JSN.div, JSN.mul, JSN.sub, hB, hn, slopeQ, interceptQ,
      regNumer, regDenom]

/-- Sum of a constant list. -/
lemma sum_const_val :
    ∀ (l : List ℚ) (c : ℚ), (∀ a ∈ l, a = c) → l.sum = (l.length : ℚ) * c
  | [], _, _ => by simp
  | x :: xs, c, h => by
    have hx : x = c := h x (List.mem_cons_self x xs)
    rw [List.sum_cons, sum_const_val xs c fun a ha => h a (List.mem_cons_of_mem x ha),
      hx, List.length_cons]
    push_cast
    ring

/-- Sum of squares of a constant list. -/
lemma sumXX_const :
    ∀ (l : List ℚ) (c : ℚ), (∀ a ∈ l, a = c) → sumXX l = (l.length : ℚ) * (c * c)
  | [], _, _ => by simp [sumXX]
  | x :: xs, c, h => by
    have hx : x = c := h x (List.mem_cons_self x xs)
    rw [sumXX_cons, sumXX_const xs c fun a ha => h a (List.mem_cons_of_mem x ha),
      hx, List.length_cons]
    push_cast
    ring

/-- Pairwise-product sum of a cons pair. -/
lemma sumXY_cons (a b : ℚ) (xs ys : List ℚ) :
    sumXY (a :: xs) (b :: ys) = a * b + sumXY xs ys := by
  simp [sumXY]

/-- Pairwise-product sum against a constant first list of equal length. -/
lemma sumXY_const :
    ∀ (x y : List ℚ) (c : ℚ), x.length = y.length → (∀ a ∈ x, a = c) →
      sumXY x y = c * y.sum
  | [], [], _, _, _ => by simp [sumXY]
  | [], _ :: _, _, hlen, _ => by simp at hlen
  | _ :: _, [], _, hlen, _ => by simp at hlen
  | a :: xs, b :: ys, c, hlen, h => by
    have ha : a = c := h a (List.mem_cons_self a xs)
    rw [sumXY_cons,
      sumXY_const xs ys c (by simpa using hlen)
        fun e he => h e (List.mem_cons_of_mem a he),
      ha, List.sum_cons]
    ring

/-- With all x-values equal, the regression numerator and denominator
both vanish and the slope and intercept are `NaN`. -/
lemma linearRegression_const_x (x y : List ℚ) (hlen : x.length = y.length)
    (h : ∀ a ∈ x, ∀ b ∈ x, a = b) :
    (linearRegression x y).slope = JSN.nan ∧
    (linearRegression x y).intercept = JSN.nan := by
  have hnum : (x.length : ℚ) * sumXY x y - x.sum * y.sum = 0 := by
    cases x with
    | nil =>
      have hy : y = [] := by
        cases y with
        | nil => rfl
        | cons b ys => simp at hlen
      subst hy
      simp [sumXY]
    | cons a xs =>
      have hc : ∀ e ∈ a :: xs, e = a :=
        fun e he => h e he a (List.mem_cons_self a xs)
      rw [sumXY_const (a :: xs) y a hlen hc, sum_const_val (a :: xs) a hc]
      ring
  have hden : (x.length : ℚ) * sumXX x - x.sum * x.sum = 0 := by
    cases x with
    | nil => simp [sumXX]
    | cons a xs =>
      have hc : ∀ e ∈ a :: xs, e = a :=
        fun e he => h e he a (List.mem_cons_self a xs)
      rw [sumXX_const (a :: xs) a hc, sum_const_val (a :: xs) a hc]
      ring
  constructor
  · simp [linearRegression, hnum, hden, JSN.div]
  · simp [linearRegression, hnum, hden, JSN.div, JSN.mul, JSN.sub]

/-- The latency regression of `detrendData`, made explicit. -/
lemma detrendData_latencyRegression (ts : List Sample) :
    (detrendData ts).latencyRegression
      = linearRegression (seriesTimes ts) (coercedValues ts Sample.latency) := rfl

/-- The throughput regression of `detrendData`, made explicit. -/
lemma detrendData_throughputRegression (ts : List Sample) :
    (detrendData ts).throughputRegression
      = linearRegression (seriesTimes ts) (coercedValues ts Sample.throughput) := rfl

/-- The detrended rows of `detrendData`, made explicit. -/
lemma detrendData_data (ts : List Sample) :
    (detrendData ts).data
      = ts.map (detrendRow
          (linearRegression (seriesTimes ts) (coercedValues ts Sample.latency))
          (linearRegression (seriesTimes ts) (coercedValues ts Sample.throughput))
          (mean ((coercedValues ts Sample.latency).filter fun v => decide (0 < v)))
          (mean ((coercedValues ts Sample.throughput).filter fun v => decide (0 < v)))) :=
  rfl

/-- The detrended row keeps the original row. -/
lemma detrendRow_row (lr tr : Regression) (lm tm : ℚ) (row : Sample) :
    (detrendRow lr tr lm tm row).row = row := rfl

/-- Detrended latency of an included (positive substituted) value. -/
lemma detrendRow_pos_latency (lr tr : Regression) (lm tm : ℚ) (row : Sample)
    (hpos : 0 < coerceValue row.latency) :
    (detrendRow lr tr lm tm row).detrendedLatency
      = JSN.add
          (JSN.sub (JSN.num (coerceValue row.latency))
            (JSN.add (JSN.mul lr.slope (JSN.num (row.time : ℚ))) lr.intercept))
          (JSN.num lm) := by
  simp [detrendRow, hpos]

/-- Detrended latency of an excluded value: the substituted value passes
through. -/
lemma detrendRow_nonpos_latency (lr tr : Regression) (lm tm : ℚ) (row : Sample)
    (hpos : ¬ 0 < coerceValue row.latency) :
    (detrendRow lr tr lm tm row).detrendedLatency
      = JSN.num (coerceValue row.latency) := by
  simp [detrendRow, hpos]

/-- Detrended throughput of an included (positive substituted) value. -/
lemma detrendRow_pos_throughput (lr tr : Regression) (lm tm : ℚ) (row : Sample)
    (hpos : 0 < coerceValue row.throughput) :
    (detrendRow lr tr lm tm row).detrendedThroughput
      = JSN.add
          (JSN.sub (JSN.num (coerceValue row.throughput))
            (JSN.add (JSN.mul tr.slope (JSN.num (row.time : ℚ))) tr.intercept))
          (JSN.num tm) := by
  simp [detrendRow, hpos]

/-- Detrended throughput of an excluded value. -/
lemma detrendRow_nonpos_throughput (lr tr : Regression) (lm tm : ℚ) (row : Sample)
    (hpos : ¬ 0 < coerceValue row.throughput) :
    (detrendRow lr tr lm tm row).detrendedThroughput
      = JSN.num (coerceValue row.throughput) := by
  simp [detrendRow, hpos]

/-- A substituted value that is not strictly positive is zero. -/
lemma coerceValue_of_not_pos (cell : Option ℚ) (h : ¬ 0 < coerceValue cell) :
    coerceValue cell = 0 := by
  cases cell with
  | none => rfl
  | some v =>
    change (if 0 < v then v else 0) = 0
    by_cases hv : 0 < v
    · exfalso
      apply h
      change 0 < (if 0 < v then v else 0)
      rw [if_pos hv]
      exact hv
    · rw [if_neg hv]

/-- C9: the regression divides by `n * sumXX - sumX * sumX`, which is
strictly positive whenever the series holds two distinct timestamps, so
both fitted slopes are then finite rationals; with a single sample or
all-equal timestamps the slope and intercept are `NaN`, and that `NaN`
propagates into the detrended value of every included sample, with no
error raised anywhere. -/
theorem C9_division_behavior :
    (∀ ts : List Sample, (∃ s1 ∈ ts, ∃ s2 ∈ ts, s1.time ≠ s2.time) →
      0 < regDenom (seriesTimes ts) ∧
      (detrendData ts).latencyRegression.slope
        = JSN.num (slopeQ (seriesTimes ts) (coercedValues ts Sample.latency)) ∧
      (detrendData ts).throughputRegression.slope
        = JSN.num (slopeQ (seriesTimes ts) (coercedValues ts Sample.throughput))) ∧
    (∀ ts : List Sample, (∀ s1 ∈ ts, ∀ s2 ∈ ts, s1.time = s2.time) →
      (detrendData ts).latencyRegression.slope = JSN.nan ∧
      (detrendData ts).latencyRegression.intercept = JSN.nan ∧
      ∀ d ∈ (detrendData ts).data, 0 < coerceValue d.row.latency →
        d.detrendedLatency = JSN.nan) := by
  constructor
  · rintro ts ⟨s1, hs1, s2, hs2, hne⟩
    have ha : (s1.time : ℚ) ∈ seriesTimes ts := List.mem_map.mpr ⟨s1, hs1, rfl⟩
    have hb : (s2.time : ℚ) ∈ seriesTimes ts := List.mem_map.mpr ⟨s2, hs2, rfl⟩
    have hab : (s1.time : ℚ) ≠ (s2.time : ℚ) := by exact_mod_cast hne
    have hpos := regDenom_pos (seriesTimes ts) _ _ ha hb hab
    refine ⟨hpos, ?_, ?_⟩
    · rw [detrendData_latencyRegression]
      exact (linearRegression_num _ _ (ne_of_gt hpos)).1
    · rw [detrendData_throughputRegression]
      exact (linearRegression_num _ _ (ne_of_gt hpos)).1
  · intro ts h
    have hconst : ∀ a ∈ seriesTimes ts, ∀ b ∈ seriesTimes ts, a = b := by
      intro a ha b hb
      obtain ⟨s1, hs1, rfl⟩ := List.mem_map.mp ha
      obtain ⟨s2, hs2, rfl⟩ := List.mem_map.mp hb
      exact_mod_cast h s1 hs1 s2 hs2
    have hlen : (seriesTimes ts).length = (coercedValues ts Sample.latency).length := by
      simp [seriesTimes, coercedValues]
    have hreg := linearRegression_const_x _ _ hlen hconst
    refine ⟨by rw [detrendData_latencyRegression]; exact hreg.1,
      by rw [detrendData_latencyRegression]; exact hreg.2, ?_⟩
    intro d hd hpos
    rw [detrendData_data] at hd
    obtain ⟨row, hrow, rfl⟩ := List.mem_map.mp hd
    rw [detrendRow_row] at hpos
    rw [detrendRow_pos_latency _ _ _ _ _ hpos, hreg.1, hreg.2]
    simp [JSN.mul, JSN.add, JSN.sub]

/-- Witness for C9: the scenario series has distinct timestamps, making
the denominator positive; the equal-timestamp series drives the latency
slope to `NaN`. -/
theorem C9_division_behavior_witness :
    0 < regDenom (seriesTimes specSeries) ∧
    (detrendData sameTimeSeries).latencyRegression.slope = JSN.nan :=
  ⟨(C9_division_behavior.1 specSeries (by decide)).1,
    (C9_division_behavior.2 sameTimeSeries (by decide)).1⟩

/-- C6: on `negTailSeries` the implemented detrender yields detrended
latencies 100, 250 and 0, while the claimed contract (fit over included
samples only, excluded values unchanged) yields 150, 150 and the original
-1: the fit disagrees at the first sample and the excluded third cell is
replaced by the substituted 0 rather than carried through unchanged. -/
theorem C6_detrend_cex :
    ((detrendData negTailSeries).data.map fun d => d.detrendedLatency)
      = [JSN.num 100, JSN.num 250, JSN.num 0] ∧
    detrendMetricSpec negTailSeries Sample.latency
      = [some 150, some 150, some (-1)] ∧
    (100 : ℚ) ≠ 150 ∧ (0 : ℚ) ≠ -1 := by
  refine ⟨?_, ?_, by norm_num, by norm_num⟩
  · norm_num [detrendData, detrendRow, linearRegression, sumXY, sumXX, coerceValue,
      mean, negTailSeries, JSN.div, JSN.mul, JSN.add, JSN.sub]
  · norm_num [detrendMetricSpec, includedPoints, slopeQ, interceptQ, regNumer,
      regDenom, sumXY, sumXX, mean, negTailSeries, List.filterMap_cons]

/-- C6 (amended): on a series with two distinct timestamps, the detrender
fits the OLS line over the WHOLE series with excluded values substituted
by 0; a sample whose substituted value is strictly positive becomes
`value - (slope * timestamp + intercept) + seriesMean`, where
`seriesMean` is the mean of the strictly positive substituted values, and
every excluded sample comes through as the substituted 0 rather than its
original raw cell. -/
theorem C6_detrend_fit (ts : List Sample)
    (h : ∃ s1 ∈ ts, ∃ s2 ∈ ts, s1.time ≠ s2.time) :
    (detrendData ts).latencyRegression.slope
      = JSN.num (slopeQ (seriesTimes ts) (coercedValues ts Sample.latency)) ∧
    (detrendData ts).latencyRegression.intercept
      = JSN.num (interceptQ (seriesTimes ts) (coercedValues ts Sample.latency)) ∧
    (detrendData ts).latencyMean
      = mean ((coercedValues ts Sample.latency).filter fun v => decide (0 < v)) ∧
    ((detrendData ts).data.map fun d => d.detrendedLatency)
      = ts.map (fun r =>
          if 0 < coerceValue r.latency then
            JSN.num (coerceValue r.latency
              - (slopeQ (seriesTimes ts) (coercedValues ts Sample.latency)
                    * (r.time : ℚ)
                 + interceptQ (seriesTimes ts) (coercedValues ts Sample.latency))
              + mean ((coercedValues ts Sample.latency).filter fun v => decide (0 < v)))
          else JSN.num 0) ∧
    (detrendData ts).throughputRegression.slope
      = JSN.num (slopeQ (seriesTimes ts) (coercedValues ts Sample.throughput)) ∧
    (detrendData ts).throughputRegression.intercept
      = JSN.num (interceptQ (seriesTimes ts) (coercedValues ts Sample.throughput)) ∧
    ((detrendData ts).data.map fun d => d.detrendedThroughput)
      = ts.map (fun r =>
          if 0 < coerceValue r.throughput then
            JSN.num (coerceValue r.throughput
              - (slopeQ (seriesTimes ts) (coercedValues ts Sample.throughput)
                    * (r.time : ℚ)
                 + interceptQ (seriesTimes ts) (coercedValues ts Sample.throughput))
              + mean ((coercedValues ts Sample.throughput).filter fun v => decide (0 < v)))
          else JSN.num 0) := by
  obtain ⟨s1, hs1, s2, hs2, hne⟩ := h
  have ha : (s1.time : ℚ) ∈ seriesTimes ts := List.mem_map.mpr ⟨s1, hs1, rfl⟩
  have hb : (s2.time : ℚ) ∈ seriesTimes ts := List.mem_map.mpr ⟨s2, hs2, rfl⟩
  have hab : (s1.time : ℚ) ≠ (s2.time : ℚ) := by exact_mod_cast hne
  have hpos := regDenom_pos (seriesTimes ts) _ _ ha hb hab
  have hlat := linearRegression_num (seriesTimes ts)
    (coercedValues ts Sample.latency) (ne_of_gt hpos)
  have hthr := linearRegression_num (seriesTimes ts)
    (coercedValues ts Sample.throughput) (ne_of_gt hpos)
  refine ⟨by rw [detrendData_latencyRegression]; exact hlat.1,
    by rw [detrendData_latencyRegression]; exact hlat.2, rfl, ?_,
    by rw [detrendData_throughputRegression]; exact hthr.1,
    by rw [detrendData_throughputRegression]; exact hthr.2, ?_⟩
  · rw [detrendData_data, List.map_map]
    refine List.map_congr_left ?_
    intro r hr
    by_cases hp : 0 < coerceValue r.latency
    · rw [Function.comp_apply, detrendRow_pos_latency _ _ _ _ _ hp, hlat.1, hlat.2,
        if_pos hp]
      simp [JSN.mul, JSN.add, JSN.sub]
    · rw [Function.comp_apply, detrendRow_nonpos_latency _ _ _ _ _ hp, if_neg hp,
        coerceValue_of_not_pos _ hp]
  · rw [detrendData_data, List.map_map]
    refine List.map_congr_left ?_
    intro r hr
    by_cases hp : 0 < coerceValue r.throughput
    · rw [Function.comp_apply, detrendRow_pos_throughput _ _ _ _ _ hp, hthr.1, hthr.2,
        if_pos hp]
      simp [JSN.mul, JSN.add, JSN.sub]
    · rw [Function.comp_apply, detrendRow_nonpos_throughput _ _ _ _ _ hp, if_neg hp,
        coerceValue_of_not_pos _ hp]

/-- Witness for C6 (amended) on `negTailSeries`, which has distinct
timestamps. -/
theorem C6_detrend_fit_witness :
    (detrendData negTailSeries).latencyRegression.slope
      = JSN.num (slopeQ (seriesTimes negTailSeries)
          (coercedValues negTailSeries Sample.latency)) :=
  (C6_detrend_fit negTailSeries (by decide)).1

end AvailTest
